import Mathlib

/-!
# Aggregate schema construction and field resolution

A shallow embedding of
`adapters/handlers/graphql/local/aggregate/properties.go` (the aggregate
property schema builders and their resolvers) and of
`calculate99thPercentile` / `main` from `test/benchmark_tenants/main.go`,
followed by theorems about them.

Conventions of the embedding:

* a Go `interface{}` value is a `Value`: a dynamic type together with its payload;
* a Go `map[string]T` is an association list read with `List.lookup`, a missing
  key yielding the zero value of `T`;
* a Go result pair `(interface{}, error)` is a `Value × Option String`, the second
  component being `none` for a `nil` error and `some msg` for `fmt.Errorf` of `msg`;
* pointer arguments (`*models.Class`, `*models.Property`) are taken to be non-nil
  and are represented by the record they point to;
* `graphql.NewObject`, in which every builder ends, checks the object name and
  returns an object that only carries an error when the name is not a GraphQL name;
* a run-time panic is the `Except.error` of a `Panic`.
-/

namespace Aggregate

/-! ## Data model -/

/-- A `float64`, identified by its IEEE-754 binary64 bit pattern. The resolvers
only move such values around, they never compute with them. -/
structure Float64 where
  bits : Nat
  deriving DecidableEq, Repr

/-- The zero value of `float64` (`+0.0`), which a Go map read yields for a missing key. -/
def Float64.zero : Float64 := ⟨0⟩

/-- The `float64` 4.5, bit pattern `0x4012000000000000`. -/
def Float64.fourAndHalf : Float64 := ⟨0x4012000000000000⟩

/-- Modelled from the spec: the declaration of `aggregation.Property` is not part of
the sources at hand. The spec describes it as "a strongly-typed record exposing a
mapping from operation-name to numeric value (`NumericalAggregations`)"; the field is
a Go `map[string]float64`. -/
structure Property where
  NumericalAggregations : List (String × Float64)
  deriving DecidableEq, Repr

/-- Modelled from the spec: the declaration of `aggregation.GroupedBy` is not part of
the sources at hand. The spec gives `{ path: ordered sequence of string, value: string }`. -/
structure GroupedBy where
  Path : List String
  Value : String
  deriving DecidableEq, Repr

/-- A Go `interface{}` value, as far as the resolvers can tell values apart: the
dynamic types the type switches name (`aggregation.Property`, `aggregation.GroupedBy`,
`map[string]interface{}`), and a selection of the dynamic types that reach their
`default` arms. -/
inductive Value where
  | nil
  | bool (b : Bool)
  | int (i : Int)
  | float64 (f : Float64)
  | string (s : String)
  | strings (xs : List String)
  | property (p : Property)
  | propertyPtr (p : Property)
  | groupedBy (g : GroupedBy)
  | groupedByPtr (g : GroupedBy)
  | map (m : List (String × Value))

/-- What `fmt` prints for the verb `%T`: the dynamic type of the value. -/
def Value.typeName : Value → String
  | .nil => "<nil>"
  | .bool _ => "bool"
  | .int _ => "int"
  | .float64 _ => "float64"
  | .string _ => "string"
  | .strings _ => "[]string"
  | .property _ => "aggregation.Property"
  | .propertyPtr _ => "*aggregation.Property"
  | .groupedBy _ => "aggregation.GroupedBy"
  | .groupedByPtr _ => "*aggregation.GroupedBy"
  | .map _ => "map[string]interface \x7b\x7d"

/-- The source is a strongly-typed aggregation property (`case aggregation.Property`). -/
def Value.isProperty : Value → Bool
  | .property _ => true
  | _ => false

/-- The source is a strongly-typed grouping record (`case aggregation.GroupedBy`). -/
def Value.isGroupedBy : Value → Bool
  | .groupedBy _ => true
  | _ => false

/-- The source is a generic string-keyed map (`case map[string]interface{}`). -/
def Value.isMap : Value → Bool
  | .map _ => true
  | _ => false

/-- Reading `m[key]` from a `map[string]float64`: the zero value when the key is absent. -/
def floatMapGet (m : List (String × Float64)) (key : String) : Float64 :=
  (m.lookup key).getD Float64.zero

/-- Reading `m[key]` from a `map[string]interface{}`: `nil` when the key is absent. -/
def mapGet (m : List (String × Value)) (key : String) : Value :=
  (m.lookup key).getD Value.nil

/-- The only part of `graphql.ResolveParams` the resolvers read. -/
structure ResolveParams where
  Source : Value

/-- A Go result pair `(interface{}, error)`. -/
abbrev ResolveResult := Value × Option String

/-- A `graphql.FieldResolveFn`. -/
abbrev FieldResolveFn := ResolveParams → ResolveResult

/-! ## Field resolver -/

/-- The resolver built for one aggregation operation (`properties.go`, lines 137-148). -/
def makeResolveFieldAggregator (aggregator : String) : FieldResolveFn :=
  fun p =>
    match p.Source with
    | .property typed => (Value.float64 (floatMapGet typed.NumericalAggregations aggregator), none)
    | .map typed => (mapGet typed aggregator, none)
    | _ => (Value.nil,
        some ("aggregator " ++ aggregator ++ ", unsupported type " ++ p.Source.typeName))

/-- Following the spec's words, "a generic mapping representing the same data": the
`map[string]interface{}` holding exactly the entries of a `map[string]float64`. -/
def toGeneric (m : List (String × Float64)) : List (String × Value) :=
  m.map (fun kv => (kv.1, Value.float64 kv.2))

/-! ## Schema builders -/

/-- The part of `models.Class` the builders read: the class name. -/
structure ModelsClass where
  Class : String
  deriving DecidableEq, Repr

/-- The part of `models.Property` the builders read: the property name. -/
structure ModelsProperty where
  Name : String
  deriving DecidableEq, Repr

/-- The GraphQL output types the builders use. -/
inductive GraphQLType where
  | Float
  | Int
  | String
  | ListOfString
  deriving DecidableEq, Repr

/-- The documentation constants of the `descriptions` package the builders refer to.
Their texts are not part of the sources at hand, so each is kept as a name. -/
inductive Description where
  | LocalAggregateSum
  | LocalAggregateMin
  | LocalAggregateMax
  | LocalAggregateMean
  | LocalAggregateMode
  | LocalAggregateMedian
  | LocalAggregateCount
  | LocalAggregatePropertyObject
  | LocalAggregateGroupedByGroupedByPath
  | LocalAggregateGroupedByGroupedByValue
  | LocalAggregateGroupedByObj
  deriving DecidableEq, Repr

/-- A `graphql.Field`; `Typ` is its `Type`. `Name` is empty where the source leaves it unset. -/
structure Field where
  Name : String
  Description : Description
  Typ : GraphQLType
  Resolve : FieldResolveFn

/-- A `graphql.Fields`: the entries of the map literal, in source order (their keys
are pairwise different string literals). -/
abbrev Fields := List (String × Field)

/-- A `graphql.ObjectConfig`, as far as the builders fill it in. -/
structure ObjectConfig where
  Name : String
  Fields : Fields
  Description : Description

/-- The two errors `graphql.NewObject` can record in the object it returns: the
type has no name, or its name is not a GraphQL name. -/
inductive ObjectError where
  | typeMustBeNamed
  | invalidName (name : String)
  deriving DecidableEq, Repr

/-- A `graphql.Object` as `graphql.NewObject` leaves it: its name, the fields and the
description it took over from the configuration, and the error it recorded. An
object with an error has no name, no fields and no description. -/
structure Object where
  Name : String
  Fields : Fields
  Description : Option Description
  err : Option ObjectError

/-- The first character of a GraphQL name: a letter of `a-z`, `A-Z` or `_`. -/
def isNameStart (c : Char) : Bool :=
  c.isAlpha || c == '_'

/-- A further character of a GraphQL name: a letter of `a-z`, `A-Z`, a digit or `_`. -/
def isNameChar (c : Char) : Bool :=
  c.isAlphanum || c == '_'

/-- The name check of the graphql library, `assertValidName`: the name matches
`^[_a-zA-Z][_a-zA-Z0-9]*$`. -/
def isValidName (name : String) : Bool :=
  match name.data with
  | [] => false
  | c :: cs => isNameStart c && cs.all isNameChar

/-- The routine `graphql.NewObject` of the graphql library the builders end in. The
library is not part of this repository; this is its behaviour on the configuration
it is handed: an empty name, or a name that is not a GraphQL name, yields an object
that only carries the error; otherwise the object takes over the name, the
description and the fields. -/
def NewObject (config : ObjectConfig) : Object :=
  if config.Name = "" then
    { Name := "", Fields := [], Description := none, err := some ObjectError.typeMustBeNamed }
  else if isValidName config.Name then
    { Name := config.Name
      Fields := config.Fields
      Description := some config.Description
      err := none }
  else
    { Name := "", Fields := [], Description := none
      err := some (ObjectError.invalidName config.Name) }

/-- The field map literal `getMetaIntFields` of `numericPropertyFields`
(`properties.go`, lines 26-69). -/
def getMetaIntFields (cls : ModelsClass) (property : ModelsProperty) (pfx : String) : Fields := [
  ("sum", {
    Name := pfx ++ cls.Class ++ property.Name ++ "Sum"
    Description := Description.LocalAggregateSum
    Typ := GraphQLType.Float
    Resolve := makeResolveFieldAggregator "sum" }),
  ("minimum", {
    Name := pfx ++ cls.Class ++ property.Name ++ "Minimum"
    Description := Description.LocalAggregateMin
    Typ := GraphQLType.Float
    Resolve := makeResolveFieldAggregator "minimum" }),
  ("maximum", {
    Name := pfx ++ cls.Class ++ property.Name ++ "Maximum"
    Description := Description.LocalAggregateMax
    Typ := GraphQLType.Float
    Resolve := makeResolveFieldAggregator "maximum" }),
  ("mean", {
    Name := pfx ++ cls.Class ++ property.Name ++ "Mean"
    Description := Description.LocalAggregateMean
    Typ := GraphQLType.Float
    Resolve := makeResolveFieldAggregator "mean" }),
  ("mode", {
    Name := pfx ++ cls.Class ++ property.Name ++ "Mode"
    Description := Description.LocalAggregateMode
    Typ := GraphQLType.Float
    Resolve := makeResolveFieldAggregator "mode" }),
  ("median", {
    Name := pfx ++ cls.Class ++ property.Name ++ "Median"
    Description := Description.LocalAggregateMedian
    Typ := GraphQLType.Float
    Resolve := makeResolveFieldAggregator "median" }),
  ("count", {
    Name := pfx ++ cls.Class ++ property.Name ++ "Count"
    Description := Description.LocalAggregateCount
    Typ := GraphQLType.Int
    Resolve := makeResolveFieldAggregator "count" })]

/-- The aggregate object of a numeric property (`properties.go`, lines 25-76): the
field map is handed to `graphql.NewObject` under the composed object name. -/
def numericPropertyFields (cls : ModelsClass) (property : ModelsProperty) (pfx : String) : Object :=
  NewObject {
    Name := pfx ++ cls.Class ++ property.Name ++ "Obj"
    Fields := getMetaIntFields cls property pfx
    Description := Description.LocalAggregatePropertyObject }

/-- The field map literal `getMetaPointingFields` of `nonNumericPropertyFields`
(`properties.go`, lines 80-87). The name of its `count` field is built from the
prefix and the class name only. -/
def getMetaPointingFields (cls : ModelsClass) (pfx : String) : Fields := [
  ("count", {
    Name := pfx ++ cls.Class ++ "Count"
    Description := Description.LocalAggregateCount
    Typ := GraphQLType.Int
    Resolve := makeResolveFieldAggregator "count" })]

/-- The aggregate object of a non-numeric property (`properties.go`, lines 78-94). -/
def nonNumericPropertyFields (cls : ModelsClass) (property : ModelsProperty) (pfx : String) : Object :=
  NewObject {
    Name := pfx ++ cls.Class ++ property.Name ++ "Obj"
    Fields := getMetaPointingFields cls pfx
    Description := Description.LocalAggregatePropertyObject }

/-- The resolver of the `path` field of `groupedByProperty` (`properties.go`, lines 101-110). -/
def groupedByPathResolve : FieldResolveFn :=
  fun p =>
    match p.Source with
    | .groupedBy typed => (Value.strings typed.Path, none)
    | .map typed => (mapGet typed "path", none)
    | _ => (Value.nil,
        some ("groupedBy field " ++ "path" ++ ": unsupported type " ++ p.Source.typeName))

/-- The resolver of the `value` field of `groupedByProperty` (`properties.go`, lines 115-124). -/
def groupedByValueResolve : FieldResolveFn :=
  fun p =>
    match p.Source with
    | .groupedBy typed => (Value.string typed.Value, none)
    | .map typed => (mapGet typed "value", none)
    | _ => (Value.nil,
        some ("groupedBy field " ++ "value" ++ ": unsupported type " ++ p.Source.typeName))

/-- The field map literal `classProperties` of `groupedByProperty` (`properties.go`,
lines 97-126). Its two fields leave `Name` unset. -/
def classProperties : Fields := [
  ("path", {
    Name := ""
    Description := Description.LocalAggregateGroupedByGroupedByPath
    Typ := GraphQLType.ListOfString
    Resolve := groupedByPathResolve }),
  ("value", {
    Name := ""
    Description := Description.LocalAggregateGroupedByGroupedByValue
    Typ := GraphQLType.String
    Resolve := groupedByValueResolve })]

/-- The grouping object of a class (`properties.go`, lines 96-135). -/
def groupedByProperty (cls : ModelsClass) : Object :=
  let classPropertiesObj : Object := NewObject {
    Name := "LocalAggregate" ++ cls.Class ++ "GroupedByObj"
    Fields := classProperties
    Description := Description.LocalAggregateGroupedByObj }
  classPropertiesObj

/-- Following the spec's words, "capitalize(operationName)": the operation name with
its first letter upper-cased. -/
def capitalize (op : String) : String :=
  match op.data with
  | [] => ""
  | c :: cs => String.mk (c.toUpper :: cs)

/-- The seven aggregation operations of the spec, in the order it lists them. -/
def operations : List String :=
  ["sum", "minimum", "maximum", "mean", "mode", "median", "count"]

/-- The entry of a field set stored under a key, as `fields[key]` reads it. -/
def Fields.get? (fields : Fields) (key : String) : Option Field :=
  fields.lookup key

end Aggregate

namespace BenchmarkTenants

/-! ## The tenant benchmark (`test/benchmark_tenants/main.go`) -/

/-- The ways the benchmark stops with a panic: the run-time error of an index
expression out of range, and the three explicit `panic` calls of `main`. -/
inductive Panic where
  | indexOutOfRange (index length : Nat)
  | weaviateNotRunning
  | couldNotAddSchema
  | couldNotAddTenant
  deriving DecidableEq, Repr

/-- Number of binary digits of `x`, with `fuel` bounding the number of halvings. -/
def bitLengthAux : Nat → Nat → Nat
  | 0, _ => 0
  | fuel + 1, x => if x = 0 then 0 else bitLengthAux fuel (x / 2) + 1

/-- Number of binary digits of `x` (`0` for `0`). -/
def bitLength (x : Nat) : Nat := bitLengthAux x x

/-- IEEE-754 rounding to nearest, ties to even, of a natural number to the 53
significant bits of a `float64` significand. The value is kept as a natural number:
the result is a 53-bit number times a power of two. -/
def roundToFloat64 (x : Nat) : Nat :=
  let s := bitLength x - 53
  let q := x / 2 ^ s
  let r := x % 2 ^ s
  if 2 ^ s < 2 * r ∨ (2 * r = 2 ^ s ∧ q % 2 = 1) then (q + 1) * 2 ^ s else q * 2 ^ s

/-- The `float64` nearest to the constant `0.99` is `0x1.fae147ae147aep-1`, that is
`0.99` times `2 ^ 53` rounded to an integer, over `2 ^ 53`. This is its numerator. -/
def significand099 : Nat := 8917127262193582

/-- The index `int(float64(len(responseTimes)) * 0.99)` (line 117): the length is
converted to `float64`, multiplied by the `float64` constant `0.99` with one rounding
of the exact product `float64(len) * significand099 / 2 ^ 53`, and truncated. -/
def percentileIndex (len : Nat) : Nat :=
  roundToFloat64 (roundToFloat64 len * significand099) / 2 ^ 53

/-- The effect of `sort.Slice` with the comparison `responseTimes[i] < responseTimes[j]`
(lines 112-114): the elements in ascending order. `sort.Slice` is a library routine;
the ascending arrangement of a list of integers is unique (`sortSlice_unique` below), so
which sorting algorithm runs makes no difference to the outcome. -/
def sortSlice (responseTimes : List Int) : List Int :=
  responseTimes.insertionSort (fun a b => a ≤ b)

/-- The 99th percentile of the response times (lines 110-123). The index expression
`responseTimes[index]` panics when the index is not below the length. -/
def calculate99thPercentile (responseTimes : List Int) : Except Panic Int :=
  let sorted := sortSlice responseTimes
  let index := percentileIndex sorted.length
  match sorted[index]? with
  | some percentile99 => .ok percentile99
  | none => .error (Panic.indexOutOfRange index sorted.length)

/-- What `performRequest` returns, without the body: the status code, the request
time in milliseconds and whether the error is non-nil. -/
structure Response where
  StatusCode : Int
  requestTime : Int
  failed : Bool
  deriving DecidableEq, Repr

/-- The server as the benchmark sees it: its answer to the readiness probe, to the
schema creation and to the creation of the tenant numbered `i`. -/
structure Server where
  ready : Response
  addSchema : Response
  addTenant : Nat → Response

/-- The result of `isWeaviateRunning` (lines 101-107). -/
def isWeaviateRunning (server : Server) : Bool :=
  !server.ready.failed && server.ready.StatusCode == 200

/-- Addition of `int64` values, wrapping around. -/
def addInt64 (a b : Int) : Int :=
  (a + b + 2 ^ 63) % 2 ^ 64 - 2 ^ 63

/-- The loop of lines 205-215, with `remaining` iterations left and `i` the loop
variable. It yields the stored request times and the total elapsed time. -/
def createTenants (server : Server) :
    Nat → Nat → List Int → Int → Except Panic (List Int × Int)
  | 0, _, tenantRequestsTimeStore, totalElapsedTime =>
    .ok (tenantRequestsTimeStore, totalElapsedTime)
  | remaining + 1, i, tenantRequestsTimeStore, totalElapsedTime =>
    let response := server.addTenant i
    if response.failed then .error Panic.couldNotAddTenant
    else if response.StatusCode ≠ 200 then .error Panic.couldNotAddTenant
    else createTenants server remaining (i + 1)
      (tenantRequestsTimeStore ++ [response.requestTime])
      (addInt64 totalElapsedTime response.requestTime)

/-- The benchmark (lines 159-221) for a requested number of tenants, against a server:
the 99th percentile and the total elapsed time it prints, or the panic it stops with.
The loop `for i := 0; i < numberTenants; i++` runs `numberTenants` times, and not at
all when `numberTenants` is zero or negative. -/
def main (numberTenants : Int) (server : Server) : Except Panic (Int × Int) :=
  if !isWeaviateRunning server then .error Panic.weaviateNotRunning
  else if server.addSchema.failed then .error Panic.couldNotAddSchema
  else if server.addSchema.StatusCode ≠ 200 then .error Panic.couldNotAddSchema
  else
    match createTenants server numberTenants.toNat 0 [] 0 with
    | .error e => .error e
    | .ok (tenantRequestsTimeStore, totalElapsedTime) =>
      match calculate99thPercentile tenantRequestsTimeStore with
      | .error e => .error e
      | .ok p99ElapsedTime => .ok (p99ElapsedTime, totalElapsedTime)

end BenchmarkTenants

namespace Aggregate

/-! ## Theorems: field resolver -/

theorem lookup_toGeneric (m : List (String × Float64)) (key : String) :
    (toGeneric m).lookup key = (m.lookup key).map Value.float64 := by
  induction m with
  | nil => rfl
  | cons kv rest ih =>
    obtain ⟨k, v⟩ := kv
    show List.lookup key ((k, Value.float64 v) :: toGeneric rest) = _
    rw [List.lookup_cons, List.lookup_cons]
    cases key == k with
    | true => rfl
    | false => exact ih

theorem data_infix_left (a b c : String) : b.data <:+: (a ++ b ++ c).data := by
  refine ⟨a.data, c.data, ?_⟩
  simp [String.data_append]

theorem data_infix_right (a b : String) : b.data <:+: (a ++ b).data := by
  refine ⟨a.data, [], ?_⟩
  simp [String.data_append]

/-- C1: for every operation name and every source that is neither an
`aggregation.Property` nor a `map[string]interface{}`, the resolver returns the nil
value together with the error "aggregator <op>, unsupported type <type of the source>",
a message that contains both the operation name and the dynamic type of the source;
for a source of one of the two recognised shapes the error is nil. -/
theorem makeResolveFieldAggregator_unsupported (op : String) (source : Value) :
    (source.isProperty = false ∧ source.isMap = false →
      ∃ msg : String,
        makeResolveFieldAggregator op ⟨source⟩ = (Value.nil, some msg) ∧
        msg = "aggregator " ++ op ++ ", unsupported type " ++ source.typeName ∧
        op.data <:+: msg.data ∧ source.typeName.data <:+: msg.data) ∧
    (source.isProperty = true ∨ source.isMap = true →
      (makeResolveFieldAggregator op ⟨source⟩).2 = none) := by
  constructor
  · rintro ⟨hp, hm⟩
    refine ⟨_, ?_, rfl, ?_, data_infix_right _ _⟩
    · cases source <;> first | rfl | simp [Value.isProperty, Value.isMap] at hp hm
    · have h := data_infix_left "aggregator " op (", unsupported type " ++ source.typeName)
      simpa [String.append_assoc] using h
  · intro h
    cases source <;> first | rfl | simp [Value.isProperty, Value.isMap] at h

/-- Witness of C1: resolving "sum" against the integer 7 and against the string "x" fails. -/
theorem makeResolveFieldAggregator_unsupported_witness :
    makeResolveFieldAggregator "sum" ⟨Value.int 7⟩ =
      (Value.nil, some "aggregator sum, unsupported type int") ∧
    makeResolveFieldAggregator "sum" ⟨Value.string "x"⟩ =
      (Value.nil, some "aggregator sum, unsupported type string") := by
  obtain ⟨m1, h1, e1, -⟩ :=
    (makeResolveFieldAggregator_unsupported "sum" (Value.int 7)).1 ⟨rfl, rfl⟩
  obtain ⟨m2, h2, e2, -⟩ :=
    (makeResolveFieldAggregator_unsupported "sum" (Value.string "x")).1 ⟨rfl, rfl⟩
  subst e1 e2
  exact ⟨h1, h2⟩

/-- C2: the resolver of an operation returns, with a nil error, the entry of
`NumericalAggregations` under the operation name for a strongly-typed aggregation
property and the entry of the map under that name for a generic map; when the name
is absent the value is the `float64` zero for the typed mapping and nil for the
generic map, again with a nil error. Resolving "sum" against
`NumericalAggregations = {"sum": 4.5}` gives 4.5. -/
theorem makeResolveFieldAggregator_lookup (op : String) :
    (∀ (p : Property) (v : Float64), p.NumericalAggregations.lookup op = some v →
      makeResolveFieldAggregator op ⟨Value.property p⟩ = (Value.float64 v, none)) ∧
    (∀ (m : List (String × Value)) (v : Value), m.lookup op = some v →
      makeResolveFieldAggregator op ⟨Value.map m⟩ = (v, none)) ∧
    (∀ p : Property, p.NumericalAggregations.lookup op = none →
      makeResolveFieldAggregator op ⟨Value.property p⟩ = (Value.float64 Float64.zero, none)) ∧
    (∀ m : List (String × Value), m.lookup op = none →
      makeResolveFieldAggregator op ⟨Value.map m⟩ = (Value.nil, none)) ∧
    makeResolveFieldAggregator "sum" ⟨Value.property ⟨[("sum", Float64.fourAndHalf)]⟩⟩ =
      (Value.float64 Float64.fourAndHalf, none) := by
  refine ⟨?_, ?_, ?_, ?_, rfl⟩
  · intro p v h
    simp [makeResolveFieldAggregator, floatMapGet, h]
  · intro m v h
    simp [makeResolveFieldAggregator, mapGet, h]
  · intro p h
    simp [makeResolveFieldAggregator, floatMapGet, h]
  · intro m h
    simp [makeResolveFieldAggregator, mapGet, h]

/-- Witness of C2: with `NumericalAggregations = {"sum": 4.5, "count": 4.5}` and the
generic map `{"sum": 4.5}`, "sum" resolves to 4.5 on both and "mean", absent from both,
resolves to the `float64` zero on the first and to nil on the second. -/
theorem makeResolveFieldAggregator_lookup_witness :
    makeResolveFieldAggregator "sum"
        ⟨Value.property ⟨[("sum", Float64.fourAndHalf), ("count", Float64.fourAndHalf)]⟩⟩ =
      (Value.float64 Float64.fourAndHalf, none) ∧
    makeResolveFieldAggregator "sum" ⟨Value.map [("sum", Value.float64 Float64.fourAndHalf)]⟩ =
      (Value.float64 Float64.fourAndHalf, none) ∧
    makeResolveFieldAggregator "mean"
        ⟨Value.property ⟨[("sum", Float64.fourAndHalf), ("count", Float64.fourAndHalf)]⟩⟩ =
      (Value.float64 Float64.zero, none) ∧
    makeResolveFieldAggregator "mean" ⟨Value.map [("sum", Value.float64 Float64.fourAndHalf)]⟩ =
      (Value.nil, none) :=
  ⟨(makeResolveFieldAggregator_lookup "sum").1 _ _ rfl,
   (makeResolveFieldAggregator_lookup "sum").2.1 _ _ rfl,
   (makeResolveFieldAggregator_lookup "mean").2.2.1 _ rfl,
   (makeResolveFieldAggregator_lookup "mean").2.2.2.1 _ rfl⟩

/-- C3, as stated, fails: with `m = {"sum": 4.5}` and the operation "mean", which is
not a key of `m`, the strongly-typed property resolves to the `float64` zero and the
generic map with the same entries resolves to nil, two different values. -/
theorem representation_transparency_counterexample :
    makeResolveFieldAggregator "mean" ⟨Value.property ⟨[("sum", Float64.fourAndHalf)]⟩⟩ =
      (Value.float64 Float64.zero, none) ∧
    makeResolveFieldAggregator "mean" ⟨Value.map (toGeneric [("sum", Float64.fourAndHalf)])⟩ =
      (Value.nil, none) ∧
    makeResolveFieldAggregator "mean" ⟨Value.property ⟨[("sum", Float64.fourAndHalf)]⟩⟩ ≠
      makeResolveFieldAggregator "mean" ⟨Value.map (toGeneric [("sum", Float64.fourAndHalf)])⟩ := by
  refine ⟨rfl, rfl, ?_⟩
  intro h
  exact Value.noConfusion (congrArg Prod.fst h)

/-- C3, amended: for every operation name that is a key of the mapping `m`, resolving
it against the strongly-typed property whose `NumericalAggregations` is `m` and against
the generic map with the same entries gives the same result, the entry of `m` under
that name with a nil error. -/
theorem representation_transparency (op : String) (m : List (String × Float64))
    (v : Float64) (h : m.lookup op = some v) :
    makeResolveFieldAggregator op ⟨Value.property ⟨m⟩⟩ =
      makeResolveFieldAggregator op ⟨Value.map (toGeneric m)⟩ ∧
    makeResolveFieldAggregator op ⟨Value.property ⟨m⟩⟩ = (Value.float64 v, none) := by
  have hg : (toGeneric m).lookup op = some (Value.float64 v) := by
    rw [lookup_toGeneric, h]; rfl
  simp [makeResolveFieldAggregator, floatMapGet, mapGet, h, hg]

/-- Witness of C3 amended: `m = {"sum": 4.5}` and "sum" give 4.5 on both representations. -/
theorem representation_transparency_witness :
    [("sum", Float64.fourAndHalf)].lookup "sum" = some Float64.fourAndHalf ∧
    makeResolveFieldAggregator "sum" ⟨Value.property ⟨[("sum", Float64.fourAndHalf)]⟩⟩ =
      makeResolveFieldAggregator "sum" ⟨Value.map [("sum", Value.float64 Float64.fourAndHalf)]⟩ ∧
    makeResolveFieldAggregator "sum" ⟨Value.property ⟨[("sum", Float64.fourAndHalf)]⟩⟩ =
      (Value.float64 Float64.fourAndHalf, none) :=
  ⟨rfl, representation_transparency "sum" [("sum", Float64.fourAndHalf)] Float64.fourAndHalf rfl⟩

/-! ## Theorems: the object constructor -/

theorem isValidName_empty : isValidName "" = false := rfl

theorem NewObject_valid (config : ObjectConfig) (h : isValidName config.Name = true) :
    NewObject config =
      { Name := config.Name
        Fields := config.Fields
        Description := some config.Description
        err := none } := by
  have hne : config.Name ≠ "" := by
    intro he
    rw [he, isValidName_empty] at h
    exact Bool.noConfusion h
  simp [NewObject, hne, h]

theorem NewObject_invalid (config : ObjectConfig) (h : isValidName config.Name = false) :
    (NewObject config).Name = "" ∧ (NewObject config).Fields = [] ∧
    (NewObject config).Description = none ∧
    (NewObject config).err =
      some (if config.Name = "" then ObjectError.typeMustBeNamed
        else ObjectError.invalidName config.Name) := by
  by_cases hne : config.Name = ""
  · simp [NewObject, hne]
  · simp [NewObject, hne, h]

theorem append_Obj_ne_empty (x : String) : x ++ "Obj" ≠ "" := by
  intro h
  have hd := congrArg String.length h
  rw [String.length_append] at hd
  have h3 : "Obj".length = 3 := rfl
  have h0 : "".length = 0 := rfl
  omega

/-! ## Theorems: grouping -/

/-- C8: for every class, the field set `groupedByProperty` builds has a `path` and a
`value` field whose resolvers return, with a nil error, the `Path` (resp. `Value`) of
a strongly-typed `GroupedBy` source and the "path" (resp. "value") entry of a generic
map, nil when that entry is absent; on every other source they return the nil value
and the error "groupedBy field path: unsupported type <type>" (resp. "... value ..."),
which names the field and the dynamic type of the source. The object
`groupedByProperty` returns holds exactly this field set whenever its name
"LocalAggregate" ++ class name ++ "GroupedByObj" is a GraphQL name. -/
theorem groupedByProperty_resolvers (cls : ModelsClass) :
    ∃ pathField valueField : Field,
      classProperties.get? "path" = some pathField ∧
      classProperties.get? "value" = some valueField ∧
      (isValidName ("LocalAggregate" ++ cls.Class ++ "GroupedByObj") = true →
        (groupedByProperty cls).Fields = classProperties ∧
        (groupedByProperty cls).Fields.get? "path" = some pathField ∧
        (groupedByProperty cls).Fields.get? "value" = some valueField ∧
        (groupedByProperty cls).err = none) ∧
      (∀ g : GroupedBy,
        pathField.Resolve ⟨Value.groupedBy g⟩ = (Value.strings g.Path, none) ∧
        valueField.Resolve ⟨Value.groupedBy g⟩ = (Value.string g.Value, none)) ∧
      (∀ (m : List (String × Value)) (v : Value),
        (m.lookup "path" = some v → pathField.Resolve ⟨Value.map m⟩ = (v, none)) ∧
        (m.lookup "value" = some v → valueField.Resolve ⟨Value.map m⟩ = (v, none))) ∧
      (∀ m : List (String × Value),
        (m.lookup "path" = none → pathField.Resolve ⟨Value.map m⟩ = (Value.nil, none)) ∧
        (m.lookup "value" = none → valueField.Resolve ⟨Value.map m⟩ = (Value.nil, none))) ∧
      (∀ source : Value, source.isGroupedBy = false ∧ source.isMap = false →
        pathField.Resolve ⟨source⟩ =
          (Value.nil, some ("groupedBy field path: unsupported type " ++ source.typeName)) ∧
        valueField.Resolve ⟨source⟩ =
          (Value.nil, some ("groupedBy field value: unsupported type " ++ source.typeName))) := by
  refine ⟨_, _, rfl, rfl, ?_, fun g => ⟨rfl, rfl⟩, ?_, ?_, ?_⟩
  · intro hvalid
    have hobj : groupedByProperty cls = _ := NewObject_valid _ hvalid
    rw [hobj]
    exact ⟨rfl, rfl, rfl, rfl⟩
  · intro m v
    constructor <;> intro h
    · simp [groupedByPathResolve, mapGet, h]
    · simp [groupedByValueResolve, mapGet, h]
  · intro m
    constructor <;> intro h
    · simp [groupedByPathResolve, mapGet, h]
    · simp [groupedByValueResolve, mapGet, h]
  · rintro source ⟨hg, hm⟩
    cases source <;> first
      | exact ⟨rfl, rfl⟩
      | simp [Value.isGroupedBy, Value.isMap] at hg hm

/-- Witness of C8: `GroupedBy{Path: ["city"], Value: "Berlin"}` resolves to `["city"]`
and "Berlin", the map `{"path": ["city"]}` resolves "path" to `["city"]` and "value" to
nil, and the integer 7 is refused by both resolvers. -/
theorem groupedByProperty_resolvers_witness :
    ∃ pathField valueField : Field,
      (groupedByProperty ⟨"City"⟩).Fields.get? "path" = some pathField ∧
      (groupedByProperty ⟨"City"⟩).Fields.get? "value" = some valueField ∧
      pathField.Resolve ⟨Value.groupedBy ⟨["city"], "Berlin"⟩⟩ = (Value.strings ["city"], none) ∧
      valueField.Resolve ⟨Value.groupedBy ⟨["city"], "Berlin"⟩⟩ = (Value.string "Berlin", none) ∧
      pathField.Resolve ⟨Value.map [("path", Value.strings ["city"])]⟩ =
        (Value.strings ["city"], none) ∧
      valueField.Resolve ⟨Value.map [("path", Value.strings ["city"])]⟩ = (Value.nil, none) ∧
      pathField.Resolve ⟨Value.int 7⟩ =
        (Value.nil, some "groupedBy field path: unsupported type int") ∧
      valueField.Resolve ⟨Value.int 7⟩ =
        (Value.nil, some "groupedBy field value: unsupported type int") := by
  obtain ⟨pf, vf, -, -, hobj, hg, hm, hn, hu⟩ := groupedByProperty_resolvers ⟨"City"⟩
  obtain ⟨-, hp, hv, -⟩ := hobj (by decide)
  exact ⟨pf, vf, hp, hv, (hg _).1, (hg _).2, (hm _ _).1 rfl, (hn _).2 rfl,
    (hu (Value.int 7) ⟨rfl, rfl⟩).1, (hu (Value.int 7) ⟨rfl, rfl⟩).2⟩

/-! ## Theorems: schema builders -/

theorem append_right_cancel_str (x y s : String) (h : x ++ s = y ++ s) : x = y := by
  have hd := congrArg String.data h
  simp only [String.data_append] at hd
  exact String.ext (List.append_cancel_right hd)

theorem append_left_cancel_str (x a b : String) (h : x ++ a = x ++ b) : a = b := by
  have hd := congrArg String.data h
  simp only [String.data_append] at hd
  exact String.ext (List.append_cancel_left hd)

theorem append_ne_of_not_suffix (x y s t : String)
    (hst : ¬ s.data <:+ t.data) (hts : ¬ t.data <:+ s.data) : x ++ s ≠ y ++ t := by
  intro h
  have hd := congrArg String.data h
  simp only [String.data_append] at hd
  rcases Nat.le_total s.data.length t.data.length with hl | hl
  · have h1 : s.data <:+ y.data ++ t.data := hd ▸ List.suffix_append x.data s.data
    exact hst (List.suffix_of_suffix_length_le h1 (List.suffix_append _ _) hl)
  · have h1 : t.data <:+ x.data ++ s.data := hd.symm ▸ List.suffix_append y.data t.data
    exact hts (List.suffix_of_suffix_length_le h1 (List.suffix_append _ _) hl)

theorem makeResolveFieldAggregator_injective (a b : String)
    (h : makeResolveFieldAggregator a = makeResolveFieldAggregator b) : a = b := by
  have h1 := congrFun h ⟨Value.map [(a, Value.bool true)]⟩
  simp only [makeResolveFieldAggregator, mapGet, List.lookup_cons, List.lookup_nil] at h1
  by_cases hab : b = a
  · exact hab.symm
  · have hb : (b == a) = false := by simpa using hab
    simp [hb] at h1

theorem getMetaIntFields_get_none (cls : ModelsClass) (property : ModelsProperty)
    (pfx key : String) (hkey : key ∉ operations) :
    (getMetaIntFields cls property pfx).get? key = none := by
  simp only [operations, List.mem_cons, List.mem_singleton, List.not_mem_nil, or_false,
    not_or] at hkey
  obtain ⟨h1, h2, h3, h4, h5, h6, h7⟩ := hkey
  have b1 : (key == "sum") = false := by simpa using h1
  have b2 : (key == "minimum") = false := by simpa using h2
  have b3 : (key == "maximum") = false := by simpa using h3
  have b4 : (key == "mean") = false := by simpa using h4
  have b5 : (key == "mode") = false := by simpa using h5
  have b6 : (key == "median") = false := by simpa using h6
  have b7 : (key == "count") = false := by simpa using h7
  simp only [Fields.get?, getMetaIntFields, List.lookup_cons, List.lookup_nil,
    b1, b2, b3, b4, b5, b6, b7]

theorem numericPropertyFields_valid (cls : ModelsClass) (property : ModelsProperty)
    (pfx : String) (hvalid : isValidName (pfx ++ cls.Class ++ property.Name ++ "Obj") = true) :
    numericPropertyFields cls property pfx =
      { Name := pfx ++ cls.Class ++ property.Name ++ "Obj"
        Fields := getMetaIntFields cls property pfx
        Description := some Description.LocalAggregatePropertyObject
        err := none } :=
  NewObject_valid _ hvalid

theorem nonNumericPropertyFields_valid (cls : ModelsClass) (property : ModelsProperty)
    (pfx : String) (hvalid : isValidName (pfx ++ cls.Class ++ property.Name ++ "Obj") = true) :
    nonNumericPropertyFields cls property pfx =
      { Name := pfx ++ cls.Class ++ property.Name ++ "Obj"
        Fields := getMetaPointingFields cls pfx
        Description := some Description.LocalAggregatePropertyObject
        err := none } :=
  NewObject_valid _ hvalid

/-- C5, as stated, fails: for the class "my-class", the property "size" and the
prefix "Local" the composed object name "Localmy-classsizeObj" is not a GraphQL name,
`graphql.NewObject` records an error, and the object `numericPropertyFields` returns
has no field at all. -/
theorem numericPropertyFields_fields_counterexample :
    isValidName "Localmy-classsizeObj" = false ∧
    (numericPropertyFields ⟨"my-class"⟩ ⟨"size"⟩ "Local").Fields.map Prod.fst = [] ∧
    (numericPropertyFields ⟨"my-class"⟩ ⟨"size"⟩ "Local").Fields.get? "sum" = none ∧
    (numericPropertyFields ⟨"my-class"⟩ ⟨"size"⟩ "Local").err =
      some (ObjectError.invalidName "Localmy-classsizeObj") := by
  refine ⟨by decide, rfl, rfl, by decide⟩

/-- C5, amended: for every class, property and prefix whose composed object name
prefix ++ class name ++ property name ++ "Obj" is a GraphQL name, the keys of the
field set of the object `numericPropertyFields` returns are exactly sum, minimum,
maximum, mean, mode, median and count; the field under each key has result type
Float, except count whose type is Int; and the resolver of the field under a key is
`makeResolveFieldAggregator` of that key, and of no other operation name. -/
theorem numericPropertyFields_fields (cls : ModelsClass) (property : ModelsProperty)
    (pfx : String) (hvalid : isValidName (pfx ++ cls.Class ++ property.Name ++ "Obj") = true) :
    (numericPropertyFields cls property pfx).err = none ∧
    (numericPropertyFields cls property pfx).Fields.map Prod.fst = operations ∧
    (∀ key : String, key ∉ operations →
      (numericPropertyFields cls property pfx).Fields.get? key = none) ∧
    (∀ key : String, key ∈ operations →
      ∃ field : Field,
        (numericPropertyFields cls property pfx).Fields.get? key = some field ∧
        field.Typ = (if key = "count" then GraphQLType.Int else GraphQLType.Float) ∧
        field.Resolve = makeResolveFieldAggregator key ∧
        ∀ op : String, field.Resolve = makeResolveFieldAggregator op → op = key) := by
  rw [numericPropertyFields_valid cls property pfx hvalid]
  refine ⟨rfl, rfl, getMetaIntFields_get_none cls property pfx, ?_⟩
  intro key hkey
  simp only [operations, List.mem_cons, List.mem_singleton, List.not_mem_nil,
    or_false] at hkey
  rcases hkey with h | h | h | h | h | h | h <;> subst h <;>
    exact ⟨_, rfl, rfl, rfl,
      fun op hop => (makeResolveFieldAggregator_injective _ _ hop).symm⟩

/-- Witness of C5 amended: for the class "City", the property "population" and the
prefix "Local", the key "count" holds a field of type Int resolved by
`makeResolveFieldAggregator "count"`, and the key "total" holds nothing. -/
theorem numericPropertyFields_fields_witness :
    isValidName ("Local" ++ "City" ++ "population" ++ "Obj") = true ∧
    "count" ∈ operations ∧ "total" ∉ operations ∧
    (numericPropertyFields ⟨"City"⟩ ⟨"population"⟩ "Local").Fields.get? "total" = none ∧
    ∃ field : Field,
      (numericPropertyFields ⟨"City"⟩ ⟨"population"⟩ "Local").Fields.get? "count" =
        some field ∧
      field.Typ = GraphQLType.Int ∧
      field.Resolve = makeResolveFieldAggregator "count" := by
  obtain ⟨-, -, hnone, hsome⟩ :=
    numericPropertyFields_fields ⟨"City"⟩ ⟨"population"⟩ "Local" (by decide)
  obtain ⟨field, hget, htyp, hres, -⟩ := hsome "count" (by decide)
  exact ⟨by decide, by decide, by decide, hnone "total" (by decide), field, hget, htyp, hres⟩

/-- C6, as stated, fails: for the class "my-class", the property "size" and the
prefix "Local" the object `numericPropertyFields` returns is not named
"Localmy-classsizeObj" but has the empty name, and it has no field, so none named
"Localmy-classsizeSum". -/
theorem numericPropertyFields_names_counterexample :
    (numericPropertyFields ⟨"my-class"⟩ ⟨"size"⟩ "Local").Name = "" ∧
    (numericPropertyFields ⟨"my-class"⟩ ⟨"size"⟩ "Local").Name ≠
      "Local" ++ "my-class" ++ "size" ++ "Obj" ∧
    (numericPropertyFields ⟨"my-class"⟩ ⟨"size"⟩ "Local").Fields.map (fun kf => kf.2.Name) =
      [] := by
  refine ⟨by decide, by decide, by decide⟩

/-- C6, amended: for every class, property and prefix whose composed object name
prefix ++ class name ++ property name ++ "Obj" is a GraphQL name, the field that the
object of `numericPropertyFields` stores under an operation name has the exposed name
prefix ++ class name ++ property name ++ the capitalised operation name, the object
is named prefix ++ class name ++ property name ++ "Obj", and the seven exposed names
are pairwise different. -/
theorem numericPropertyFields_names (cls : ModelsClass) (property : ModelsProperty)
    (pfx : String) (hvalid : isValidName (pfx ++ cls.Class ++ property.Name ++ "Obj") = true) :
    (∀ (key : String) (field : Field),
      (numericPropertyFields cls property pfx).Fields.get? key = some field →
      field.Name = pfx ++ cls.Class ++ property.Name ++ capitalize key) ∧
    (numericPropertyFields cls property pfx).Fields.map (fun kf => kf.2.Name) =
      operations.map (fun op => pfx ++ cls.Class ++ property.Name ++ capitalize op) ∧
    (numericPropertyFields cls property pfx).Name =
      pfx ++ cls.Class ++ property.Name ++ "Obj" ∧
    ((numericPropertyFields cls property pfx).Fields.map (fun kf => kf.2.Name)).Nodup := by
  rw [numericPropertyFields_valid cls property pfx hvalid]
  have hnames : (getMetaIntFields cls property pfx).map (fun kf => kf.2.Name) =
      operations.map (fun op => pfx ++ cls.Class ++ property.Name ++ capitalize op) := rfl
  refine ⟨?_, hnames, rfl, ?_⟩
  · intro key field h
    by_cases hk : key ∈ operations
    · simp only [operations, List.mem_cons, List.mem_singleton, List.not_mem_nil,
        or_false] at hk
      rcases hk with hk | hk | hk | hk | hk | hk | hk <;> subst hk <;>
        · have h2 := Option.some.inj h
          subst h2
          rfl
    · have hnone := getMetaIntFields_get_none cls property pfx key hk
      rw [show (getMetaIntFields cls property pfx).get? key = none from hnone] at h
      exact absurd h (by simp)
  · show ((getMetaIntFields cls property pfx).map (fun kf => kf.2.Name)).Nodup
    rw [hnames]
    refine List.Nodup.map_on ?_ (by decide)
    intro a ha b hb hab
    have hc := append_left_cancel_str _ _ _ hab
    simp only [operations, List.mem_cons, List.mem_singleton, List.not_mem_nil,
      or_false] at ha hb
    rcases ha with ha | ha | ha | ha | ha | ha | ha <;>
      rcases hb with hb | hb | hb | hb | hb | hb | hb <;> subst ha <;> subst hb <;>
      first
        | rfl
        | exact absurd hc (by decide)

/-- Witness of C6 amended: for the class "City", the property "population" and the
prefix "Local", the field stored under "sum" is named "LocalCitypopulationSum" and
the object is named "LocalCitypopulationObj". -/
theorem numericPropertyFields_names_witness :
    isValidName ("Local" ++ "City" ++ "population" ++ "Obj") = true ∧
    (numericPropertyFields ⟨"City"⟩ ⟨"population"⟩ "Local").Name = "LocalCitypopulationObj" ∧
    ∃ field : Field,
      (numericPropertyFields ⟨"City"⟩ ⟨"population"⟩ "Local").Fields.get? "sum" =
        some field ∧
      field.Name = "LocalCitypopulationSum" :=
  ⟨by decide,
    (numericPropertyFields_names ⟨"City"⟩ ⟨"population"⟩ "Local" (by decide)).2.2.1,
    _, rfl,
    (numericPropertyFields_names ⟨"City"⟩ ⟨"population"⟩ "Local" (by decide)).1 "sum" _ rfl⟩

/-- C7, as stated, fails: for the class "my-class", the property "size" and the
prefix "Local" the object `nonNumericPropertyFields` returns has no count field and
the empty name, because "Localmy-classsizeObj" is not a GraphQL name. -/
theorem nonNumericPropertyFields_fields_counterexample :
    (nonNumericPropertyFields ⟨"my-class"⟩ ⟨"size"⟩ "Local").Fields.map Prod.fst = [] ∧
    (nonNumericPropertyFields ⟨"my-class"⟩ ⟨"size"⟩ "Local").Fields.get? "count" = none ∧
    (nonNumericPropertyFields ⟨"my-class"⟩ ⟨"size"⟩ "Local").Name = "" ∧
    (nonNumericPropertyFields ⟨"my-class"⟩ ⟨"size"⟩ "Local").err =
      some (ObjectError.invalidName "Localmy-classsizeObj") := by
  refine ⟨rfl, rfl, by decide, by decide⟩

/-- C7, amended: for every class, property and prefix whose composed object name
prefix ++ class name ++ property name ++ "Obj" is a GraphQL name, the field set of
the object `nonNumericPropertyFields` returns has exactly one field, stored under
count, of result type Int and resolved by `makeResolveFieldAggregator "count"`; its
exposed name is prefix ++ class name ++ "Count", the same for every other property
of the class, while the object is named prefix ++ class name ++ property name ++
"Obj". -/
theorem nonNumericPropertyFields_fields (cls : ModelsClass) (property : ModelsProperty)
    (pfx : String) (hvalid : isValidName (pfx ++ cls.Class ++ property.Name ++ "Obj") = true) :
    ∃ field : Field,
      (nonNumericPropertyFields cls property pfx).Fields = [("count", field)] ∧
      field.Typ = GraphQLType.Int ∧
      field.Resolve = makeResolveFieldAggregator "count" ∧
      field.Name = pfx ++ cls.Class ++ "Count" ∧
      (∀ other : ModelsProperty,
        isValidName (pfx ++ cls.Class ++ other.Name ++ "Obj") = true →
        (nonNumericPropertyFields cls other pfx).Fields.map (fun kf => kf.2.Name) =
          [field.Name]) ∧
      (nonNumericPropertyFields cls property pfx).Name =
        pfx ++ cls.Class ++ property.Name ++ "Obj" ∧
      (nonNumericPropertyFields cls property pfx).err = none := by
  rw [nonNumericPropertyFields_valid cls property pfx hvalid]
  refine ⟨_, rfl, rfl, rfl, rfl, ?_, rfl, rfl⟩
  intro other hother
  rw [nonNumericPropertyFields_valid cls other pfx hother]
  rfl

/-- Witness of C7 amended: for the class "City", the prefix "Local" and the
properties "name" and "mayor", the single field is named "LocalCityCount" both
times, and the object of the first is named "LocalCitynameObj". -/
theorem nonNumericPropertyFields_fields_witness :
    isValidName ("Local" ++ "City" ++ "name" ++ "Obj") = true ∧
    isValidName ("Local" ++ "City" ++ "mayor" ++ "Obj") = true ∧
    (nonNumericPropertyFields ⟨"City"⟩ ⟨"name"⟩ "Local").Fields.map
      (fun kf => (kf.1, kf.2.Name)) = [("count", "LocalCityCount")] ∧
    (nonNumericPropertyFields ⟨"City"⟩ ⟨"mayor"⟩ "Local").Fields.map
      (fun kf => kf.2.Name) = ["LocalCityCount"] ∧
    (nonNumericPropertyFields ⟨"City"⟩ ⟨"name"⟩ "Local").Name = "LocalCitynameObj" := by
  obtain ⟨field, hfields, -, -, hname, hother, hobj, -⟩ :=
    nonNumericPropertyFields_fields ⟨"City"⟩ ⟨"name"⟩ "Local" (by decide)
  refine ⟨by decide, by decide, ?_, ?_, hobj⟩
  · rw [hfields]
    simp only [List.map_cons, List.map_nil, hname]
    rfl
  · rw [hother ⟨"mayor"⟩ (by decide), hname]
    rfl

/-- C4, as stated, fails. The pairs (class "Ab", property "cd") and (class "Abc",
property "d") are different, yet with the prefix "Local" both builders give them the
same object name "LocalAbcdObj", a GraphQL name, and `numericPropertyFields` gives
them the same seven exposed names. -/
theorem generated_names_counterexample :
    ((⟨"Ab"⟩ : ModelsClass), (⟨"cd"⟩ : ModelsProperty)) ≠ (⟨"Abc"⟩, ⟨"d"⟩) ∧
    (numericPropertyFields ⟨"Ab"⟩ ⟨"cd"⟩ "Local").Name = "LocalAbcdObj" ∧
    (numericPropertyFields ⟨"Abc"⟩ ⟨"d"⟩ "Local").Name = "LocalAbcdObj" ∧
    (nonNumericPropertyFields ⟨"Ab"⟩ ⟨"cd"⟩ "Local").Name = "LocalAbcdObj" ∧
    (nonNumericPropertyFields ⟨"Abc"⟩ ⟨"d"⟩ "Local").Name = "LocalAbcdObj" ∧
    (numericPropertyFields ⟨"Ab"⟩ ⟨"cd"⟩ "Local").Fields.map (fun kf => kf.2.Name) =
      ["LocalAbcdSum", "LocalAbcdMinimum", "LocalAbcdMaximum", "LocalAbcdMean",
        "LocalAbcdMode", "LocalAbcdMedian", "LocalAbcdCount"] ∧
    (numericPropertyFields ⟨"Abc"⟩ ⟨"d"⟩ "Local").Fields.map (fun kf => kf.2.Name) =
      ["LocalAbcdSum", "LocalAbcdMinimum", "LocalAbcdMaximum", "LocalAbcdMean",
        "LocalAbcdMode", "LocalAbcdMedian", "LocalAbcdCount"] := by
  refine ⟨by decide, ?_, ?_, ?_, ?_, ?_, ?_⟩ <;> decide

theorem generatedNames_eq (cls : ModelsClass) (property : ModelsProperty) (pfx : String) :
    (pfx ++ cls.Class ++ property.Name ++ "Obj") ::
        (getMetaIntFields cls property pfx).map (fun kf => kf.2.Name) =
      ["Obj", "Sum", "Minimum", "Maximum", "Mean", "Mode", "Median", "Count"].map
        (fun suffix => pfx ++ (cls.Class ++ property.Name) ++ suffix) := by
  simp [getMetaIntFields, String.append_assoc]

/-- C4, amended: for two (class, property) pairs and the same prefix, when the two
composed object names are GraphQL names and the concatenations class name ++ property
name differ, the object name and the seven exposed names `numericPropertyFields`
generates for the first pair are all different from those it generates for the second
pair; `nonNumericPropertyFields` gives the object the same name as
`numericPropertyFields` does. -/
theorem generated_names_distinct (pfx : String) (c1 c2 : ModelsClass)
    (p1 p2 : ModelsProperty)
    (hv1 : isValidName (pfx ++ c1.Class ++ p1.Name ++ "Obj") = true)
    (hv2 : isValidName (pfx ++ c2.Class ++ p2.Name ++ "Obj") = true)
    (h : c1.Class ++ p1.Name ≠ c2.Class ++ p2.Name) :
    (∀ n1 ∈ (numericPropertyFields c1 p1 pfx).Name ::
          (numericPropertyFields c1 p1 pfx).Fields.map (fun kf => kf.2.Name),
      ∀ n2 ∈ (numericPropertyFields c2 p2 pfx).Name ::
          (numericPropertyFields c2 p2 pfx).Fields.map (fun kf => kf.2.Name),
      n1 ≠ n2) ∧
    (nonNumericPropertyFields c1 p1 pfx).Name = (numericPropertyFields c1 p1 pfx).Name ∧
    (nonNumericPropertyFields c2 p2 pfx).Name = (numericPropertyFields c2 p2 pfx).Name := by
  rw [numericPropertyFields_valid c1 p1 pfx hv1, numericPropertyFields_valid c2 p2 pfx hv2,
    nonNumericPropertyFields_valid c1 p1 pfx hv1, nonNumericPropertyFields_valid c2 p2 pfx hv2]
  refine ⟨?_, rfl, rfl⟩
  show ∀ n1 ∈ (pfx ++ c1.Class ++ p1.Name ++ "Obj") ::
        (getMetaIntFields c1 p1 pfx).map (fun kf => kf.2.Name),
      ∀ n2 ∈ (pfx ++ c2.Class ++ p2.Name ++ "Obj") ::
        (getMetaIntFields c2 p2 pfx).map (fun kf => kf.2.Name), n1 ≠ n2
  rw [generatedNames_eq, generatedNames_eq]
  intro n1 h1 n2 h2
  simp only [List.map_cons, List.map_nil, List.mem_cons, List.mem_singleton,
    List.not_mem_nil, or_false] at h1 h2
  have hsame : ∀ s : String,
      pfx ++ (c1.Class ++ p1.Name) ++ s ≠ pfx ++ (c2.Class ++ p2.Name) ++ s :=
    fun s hs => h (append_left_cancel_str _ _ _ (append_right_cancel_str _ _ _ hs))
  rcases h1 with h1 | h1 | h1 | h1 | h1 | h1 | h1 | h1 <;>
    rcases h2 with h2 | h2 | h2 | h2 | h2 | h2 | h2 | h2 <;> subst h1 <;> subst h2 <;>
    first
      | exact hsame _
      | exact append_ne_of_not_suffix _ _ _ _ (by decide) (by decide)

/-- Witness of C4 amended: class "Ab" with property "cd" against class "Ab" with
property "ce". -/
theorem generated_names_distinct_witness :
    isValidName ("Local" ++ "Ab" ++ "cd" ++ "Obj") = true ∧
    isValidName ("Local" ++ "Ab" ++ "ce" ++ "Obj") = true ∧
    "Ab" ++ "cd" ≠ "Ab" ++ "ce" ∧
    (∀ n1 ∈ (numericPropertyFields ⟨"Ab"⟩ ⟨"cd"⟩ "Local").Name ::
          (numericPropertyFields ⟨"Ab"⟩ ⟨"cd"⟩ "Local").Fields.map (fun kf => kf.2.Name),
      ∀ n2 ∈ (numericPropertyFields ⟨"Ab"⟩ ⟨"ce"⟩ "Local").Name ::
          (numericPropertyFields ⟨"Ab"⟩ ⟨"ce"⟩ "Local").Fields.map (fun kf => kf.2.Name),
      n1 ≠ n2) :=
  ⟨by decide, by decide, by decide,
    (generated_names_distinct "Local" ⟨"Ab"⟩ ⟨"Ab"⟩ ⟨"cd"⟩ ⟨"ce"⟩
      (by decide) (by decide) (by decide)).1⟩

/-- C9, as stated, fails: with an empty class name and an empty property name (and
an empty prefix) both builders return an object without error, named "Obj", with
the seven fields (resp. the one field) of a regular property. -/
theorem invalid_definition_counterexample :
    (numericPropertyFields ⟨""⟩ ⟨""⟩ "").err = none ∧
    (numericPropertyFields ⟨""⟩ ⟨""⟩ "").Name = "Obj" ∧
    (numericPropertyFields ⟨""⟩ ⟨""⟩ "").Fields.map (fun kf => (kf.1, kf.2.Name)) =
      [("sum", "Sum"), ("minimum", "Minimum"), ("maximum", "Maximum"), ("mean", "Mean"),
        ("mode", "Mode"), ("median", "Median"), ("count", "Count")] ∧
    (nonNumericPropertyFields ⟨""⟩ ⟨""⟩ "").err = none ∧
    (nonNumericPropertyFields ⟨""⟩ ⟨""⟩ "").Name = "Obj" ∧
    (nonNumericPropertyFields ⟨""⟩ ⟨""⟩ "").Fields.map (fun kf => (kf.1, kf.2.Name)) =
      [("count", "Count")] := by
  refine ⟨?_, ?_, ?_, ?_, ?_, ?_⟩ <;> decide

/-- C9, amended: building the aggregate fields fails exactly when the composed object
name prefix ++ class name ++ property name ++ "Obj" is not a GraphQL name: the object
the builder returns then carries the name error of `graphql.NewObject` and has no
name and no fields. When the composed name is a GraphQL name, which an empty class
name or an empty property name does not prevent, the object carries no error, bears
that name and holds the seven fields (resp. the one field). The builders are not
given a data-type category. -/
theorem builders_fail_iff_invalid_name (cls : ModelsClass) (property : ModelsProperty)
    (pfx : String) :
    ((numericPropertyFields cls property pfx).err ≠ none ↔
      isValidName (pfx ++ cls.Class ++ property.Name ++ "Obj") = false) ∧
    ((nonNumericPropertyFields cls property pfx).err ≠ none ↔
      isValidName (pfx ++ cls.Class ++ property.Name ++ "Obj") = false) ∧
    (isValidName (pfx ++ cls.Class ++ property.Name ++ "Obj") = false →
      (numericPropertyFields cls property pfx).err =
        some (ObjectError.invalidName (pfx ++ cls.Class ++ property.Name ++ "Obj")) ∧
      (numericPropertyFields cls property pfx).Name = "" ∧
      (numericPropertyFields cls property pfx).Fields = [] ∧
      (nonNumericPropertyFields cls property pfx).err =
        some (ObjectError.invalidName (pfx ++ cls.Class ++ property.Name ++ "Obj")) ∧
      (nonNumericPropertyFields cls property pfx).Name = "" ∧
      (nonNumericPropertyFields cls property pfx).Fields = []) ∧
    (isValidName (pfx ++ cls.Class ++ property.Name ++ "Obj") = true →
      (numericPropertyFields cls property pfx).Name =
        pfx ++ cls.Class ++ property.Name ++ "Obj" ∧
      (numericPropertyFields cls property pfx).Fields.length = 7 ∧
      (nonNumericPropertyFields cls property pfx).Name =
        pfx ++ cls.Class ++ property.Name ++ "Obj" ∧
      (nonNumericPropertyFields cls property pfx).Fields.length = 1) ∧
    (isValidName (pfx ++ "Obj") = true →
      (numericPropertyFields ⟨""⟩ ⟨""⟩ pfx).err = none ∧
      (numericPropertyFields ⟨""⟩ ⟨""⟩ pfx).Fields.length = 7 ∧
      (nonNumericPropertyFields ⟨""⟩ ⟨""⟩ pfx).err = none ∧
      (nonNumericPropertyFields ⟨""⟩ ⟨""⟩ pfx).Fields.length = 1) := by
  have hinvalid : isValidName (pfx ++ cls.Class ++ property.Name ++ "Obj") = false →
      (numericPropertyFields cls property pfx).err =
        some (ObjectError.invalidName (pfx ++ cls.Class ++ property.Name ++ "Obj")) ∧
      (numericPropertyFields cls property pfx).Name = "" ∧
      (numericPropertyFields cls property pfx).Fields = [] ∧
      (nonNumericPropertyFields cls property pfx).err =
        some (ObjectError.invalidName (pfx ++ cls.Class ++ property.Name ++ "Obj")) ∧
      (nonNumericPropertyFields cls property pfx).Name = "" ∧
      (nonNumericPropertyFields cls property pfx).Fields = [] := by
    intro hbad
    have hne := append_Obj_ne_empty (pfx ++ cls.Class ++ property.Name)
    obtain ⟨n1, n2, -, n4⟩ := NewObject_invalid
      { Name := pfx ++ cls.Class ++ property.Name ++ "Obj"
        Fields := getMetaIntFields cls property pfx
        Description := Description.LocalAggregatePropertyObject } hbad
    obtain ⟨m1, m2, -, m4⟩ := NewObject_invalid
      { Name := pfx ++ cls.Class ++ property.Name ++ "Obj"
        Fields := getMetaPointingFields cls pfx
        Description := Description.LocalAggregatePropertyObject } hbad
    simp only [if_neg hne] at n4 m4
    exact ⟨n4, n1, n2, m4, m1, m2⟩
  refine ⟨?_, ?_, hinvalid, ?_, ?_⟩
  · constructor
    · intro herr
      by_contra hgood
      have hv : isValidName (pfx ++ cls.Class ++ property.Name ++ "Obj") = true := by
        simpa using hgood
      rw [numericPropertyFields_valid cls property pfx hv] at herr
      exact herr rfl
    · intro hbad
      rw [(hinvalid hbad).1]
      simp
  · constructor
    · intro herr
      by_contra hgood
      have hv : isValidName (pfx ++ cls.Class ++ property.Name ++ "Obj") = true := by
        simpa using hgood
      rw [nonNumericPropertyFields_valid cls property pfx hv] at herr
      exact herr rfl
    · intro hbad
      rw [(hinvalid hbad).2.2.2.1]
      simp
  · intro hv
    rw [numericPropertyFields_valid cls property pfx hv,
      nonNumericPropertyFields_valid cls property pfx hv]
    exact ⟨rfl, rfl, rfl, rfl⟩
  · intro hv
    have hv2 : isValidName (pfx ++ (⟨""⟩ : ModelsClass).Class ++
        (⟨""⟩ : ModelsProperty).Name ++ "Obj") = true := by
      simpa using hv
    rw [numericPropertyFields_valid ⟨""⟩ ⟨""⟩ pfx hv2,
      nonNumericPropertyFields_valid ⟨""⟩ ⟨""⟩ pfx hv2]
    exact ⟨rfl, rfl, rfl, rfl⟩

/-- Witness of C9 amended: with the prefix "Local", the class "my-class" makes both
builders fail, and the empty class name with the empty property name does not. -/
theorem builders_fail_iff_invalid_name_witness :
    isValidName ("Local" ++ "my-class" ++ "size" ++ "Obj") = false ∧
    (numericPropertyFields ⟨"my-class"⟩ ⟨"size"⟩ "Local").err ≠ none ∧
    (nonNumericPropertyFields ⟨"my-class"⟩ ⟨"size"⟩ "Local").err ≠ none ∧
    (numericPropertyFields ⟨"my-class"⟩ ⟨"size"⟩ "Local").Fields = [] ∧
    isValidName ("Local" ++ "Obj") = true ∧
    (numericPropertyFields ⟨""⟩ ⟨""⟩ "Local").err = none ∧
    (numericPropertyFields ⟨""⟩ ⟨""⟩ "Local").Fields.length = 7 :=
  ⟨by decide,
    (builders_fail_iff_invalid_name ⟨"my-class"⟩ ⟨"size"⟩ "Local").1.2 (by decide),
    (builders_fail_iff_invalid_name ⟨"my-class"⟩ ⟨"size"⟩ "Local").2.1.2 (by decide),
    ((builders_fail_iff_invalid_name ⟨"my-class"⟩ ⟨"size"⟩ "Local").2.2.1 (by decide)).2.2.1,
    by decide,
    ((builders_fail_iff_invalid_name ⟨""⟩ ⟨""⟩ "Local").2.2.2.2 (by decide)).1,
    ((builders_fail_iff_invalid_name ⟨""⟩ ⟨""⟩ "Local").2.2.2.2 (by decide)).2.1⟩

end Aggregate

namespace BenchmarkTenants

/-! ## Theorems: the 99th percentile -/

theorem bitLengthAux_zero (fuel : Nat) : bitLengthAux fuel 0 = 0 := by
  cases fuel <;> simp [bitLengthAux]

theorem bitLengthAux_spec : ∀ fuel x : Nat, x ≤ fuel →
    x < 2 ^ bitLengthAux fuel x ∧ (x ≠ 0 → 2 ^ (bitLengthAux fuel x - 1) ≤ x) := by
  intro fuel
  induction fuel with
  | zero =>
    intro x hx
    have : x = 0 := Nat.le_zero.mp hx
    subst this
    simp [bitLengthAux]
  | succ fuel ih =>
    intro x hx
    by_cases h0 : x = 0
    · subst h0
      simp [bitLengthAux]
    · have hhalf : x / 2 ≤ fuel := by omega
      obtain ⟨hlt, hge⟩ := ih (x / 2) hhalf
      have hstep : bitLengthAux (fuel + 1) x = bitLengthAux fuel (x / 2) + 1 := by
        simp [bitLengthAux, h0]
      rw [hstep]
      refine ⟨?_, fun _ => ?_⟩
      · rw [Nat.pow_succ]
        omega
      · rw [Nat.add_sub_cancel]
        by_cases h1 : x / 2 = 0
        · rw [h1, bitLengthAux_zero]
          simp
          omega
        · have hpos : bitLengthAux fuel (x / 2) ≠ 0 := by
            intro hb
            rw [hb] at hlt
            simp at hlt
            exact h1 hlt
          have hle := hge h1
          obtain ⟨b, hb⟩ := Nat.exists_eq_succ_of_ne_zero hpos
          rw [hb] at hle ⊢
          rw [Nat.succ_sub_one] at hle
          rw [Nat.pow_succ]
          omega

theorem lt_two_pow_bitLength (x : Nat) : x < 2 ^ bitLength x :=
  (bitLengthAux_spec x x (Nat.le_refl x)).1

theorem two_pow_bitLength_le (x : Nat) (hx : x ≠ 0) : 2 ^ (bitLength x - 1) ≤ x :=
  (bitLengthAux_spec x x (Nat.le_refl x)).2 hx

/-- The rounding error of `roundToFloat64` is at most one part in `2 ^ 53`, upwards. -/
theorem roundToFloat64_le (x : Nat) : roundToFloat64 x * 2 ^ 53 ≤ x * (2 ^ 53 + 1) := by
  by_cases hs : bitLength x ≤ 53
  · have h0 : bitLength x - 53 = 0 := by omega
    have : roundToFloat64 x = x := by
      simp [roundToFloat64, h0, Nat.mod_one]
    rw [this]
    omega
  · have hx : x ≠ 0 := by
      intro h
      subst h
      exact hs (by simp [bitLength, bitLengthAux])
    have hpow := two_pow_bitLength_le x hx
    have hsplit : bitLength x - 1 = (bitLength x - 53) + 52 := by omega
    rw [hsplit, Nat.pow_add] at hpow
    have hdm := Nat.div_add_mod x (2 ^ (bitLength x - 53))
    have hmod := Nat.mod_lt x (Nat.pos_pow_of_pos (bitLength x - 53) (by norm_num : 0 < 2))
    have hcomm : 2 ^ (bitLength x - 53) * (x / 2 ^ (bitLength x - 53)) =
        x / 2 ^ (bitLength x - 53) * 2 ^ (bitLength x - 53) := Nat.mul_comm _ _
    have h52 : (2 : Nat) ^ 52 = 4503599627370496 := by norm_num
    have h53 : (2 : Nat) ^ 53 = 9007199254740992 := by norm_num
    rw [h52] at hpow
    rw [h53]
    unfold roundToFloat64
    simp only []
    generalize 2 ^ (bitLength x - 53) = P at *
    generalize hq : x / P = q at *
    generalize hr : x % P = r at *
    generalize hA : q * P = A at *
    split
    · next hc =>
      have : (q + 1) * P = A + P := by rw [Nat.add_mul, hA, Nat.one_mul]
      rw [this]
      omega
    · omega

/-- The index is in range for every non-empty slice. -/
theorem percentileIndex_lt (n : Nat) (hn : 0 < n) : percentileIndex n < n := by
  have h1 := roundToFloat64_le n
  have h2 := roundToFloat64_le (roundToFloat64 n * significand099)
  have h3 := Nat.div_mul_le_self (roundToFloat64 (roundToFloat64 n * significand099)) (2 ^ 53)
  have h53 : (2 : Nat) ^ 53 = 9007199254740992 := by norm_num
  unfold percentileIndex
  rw [h53] at h1 h2 h3 ⊢
  simp only [significand099] at h2 h3 ⊢
  generalize roundToFloat64 (roundToFloat64 n * 8917127262193582) = R at *
  generalize roundToFloat64 n = F at *
  generalize R / 9007199254740992 = idx at *
  omega

/-- The result of `roundToFloat64` is a multiple of the unit in the last place and
lies within half a unit of its argument. -/
theorem roundToFloat64_near (x : Nat) :
    2 ^ (bitLength x - 53) ∣ roundToFloat64 x ∧
    2 * roundToFloat64 x ≤ 2 * x + 2 ^ (bitLength x - 53) ∧
    2 * x ≤ 2 * roundToFloat64 x + 2 ^ (bitLength x - 53) := by
  have hdm := Nat.div_add_mod x (2 ^ (bitLength x - 53))
  have hmod := Nat.mod_lt x (Nat.pos_pow_of_pos (bitLength x - 53) (by norm_num : 0 < 2))
  unfold roundToFloat64
  simp only []
  generalize 2 ^ (bitLength x - 53) = P at *
  generalize hq : x / P = q at *
  generalize hr : x % P = r at *
  have hA : P * q = q * P := Nat.mul_comm _ _
  split
  · next hc =>
    refine ⟨Dvd.intro_left _ rfl, ?_, ?_⟩
    · rw [Nat.add_mul, Nat.one_mul]
      generalize q * P = A at *
      omega
    · rw [Nat.add_mul, Nat.one_mul]
      generalize q * P = A at *
      omega
  · next hc =>
    refine ⟨Dvd.intro_left _ rfl, ?_, ?_⟩
    · generalize q * P = A at *
      omega
    · generalize q * P = A at *
      omega

theorem roundToFloat64_small (n : Nat) (hn : n < 2 ^ 53) : roundToFloat64 n = n := by
  have hb : bitLength n - 53 = 0 := by
    by_cases h0 : n = 0
    · subst h0
      simp [bitLength, bitLengthAux]
    · have h1 := two_pow_bitLength_le n h0
      have h2 : 2 ^ (bitLength n - 1) < 2 ^ 53 := Nat.lt_of_le_of_lt h1 hn
      have h3 := (Nat.pow_lt_pow_iff_right (by norm_num : 1 < 2)).mp h2
      omega
  simp [roundToFloat64, hb, Nat.mod_one]

/-- Up to `2 ^ 47` elements the index is `99 * n / 100`, the integer part of `0.99 * n`. -/
theorem percentileIndex_eq (n : Nat) (hn : n ≤ 2 ^ 47) : percentileIndex n = 99 * n / 100 := by
  have h47 : (2 : Nat) ^ 47 = 140737488355328 := by norm_num
  have h52 : (2 : Nat) ^ 52 = 4503599627370496 := by norm_num
  have h53 : (2 : Nat) ^ 53 = 9007199254740992 := by norm_num
  rw [h47] at hn
  by_cases h0 : n = 0
  · subst h0
    decide
  have hF : roundToFloat64 n = n := roundToFloat64_small n (by rw [h53]; omega)
  unfold percentileIndex
  rw [hF]
  obtain ⟨hdvd, hup, hlo⟩ := roundToFloat64_near (n * significand099)
  have hP0 : n * significand099 ≠ 0 := by
    simp only [significand099]
    omega
  have hlen_lo := two_pow_bitLength_le (n * significand099) hP0
  have hlen_hi := lt_two_pow_bitLength (n * significand099)
  -- the product has between 53 and 100 binary digits
  have hb_lo : 53 ≤ bitLength (n * significand099) := by
    by_contra hlt
    have h1 : bitLength (n * significand099) ≤ 52 := by omega
    have h2 : 2 ^ bitLength (n * significand099) ≤ 2 ^ 52 :=
      Nat.pow_le_pow_right (by norm_num) h1
    simp only [significand099] at hlen_hi h2
    omega
  have hb_hi : bitLength (n * significand099) ≤ 100 := by
    by_contra hgt
    have h1 : 100 ≤ bitLength (n * significand099) - 1 := by omega
    have h2 : 2 ^ 100 ≤ 2 ^ (bitLength (n * significand099) - 1) :=
      Nat.pow_le_pow_right (by norm_num) h1
    have h100 : (2 : Nat) ^ 100 = 1267650600228229401496703205376 := by norm_num
    simp only [significand099] at hlen_lo h2
    omega
  obtain ⟨s, hs⟩ : ∃ s, bitLength (n * significand099) = s + 53 :=
    ⟨bitLength (n * significand099) - 53, by omega⟩
  have hs47 : s ≤ 47 := by omega
  have hsub : bitLength (n * significand099) - 53 = s := by omega
  rw [hsub] at hdvd hup hlo
  rw [hs, Nat.pow_add] at hlen_hi
  -- the unit in the last place divides `2 ^ 53` and is at most `2 ^ 47`
  have hM47 : 2 ^ s ≤ 2 ^ 47 := Nat.pow_le_pow_right (by norm_num) hs47
  have hM53 : (2 : Nat) ^ 53 = 2 ^ s * 2 ^ (53 - s) := by
    rw [← Nat.pow_add]
    congr 1
    omega
  obtain ⟨a, ha⟩ := hdvd
  rw [ha] at hup hlo ⊢
  have hk : 99 * n / 100 * 2 ^ 53 = 2 ^ s * (99 * n / 100 * 2 ^ (53 - s)) := by
    rw [hM53]
    ring
  have hk1 : (99 * n / 100 + 1) * 2 ^ 53 = 2 ^ s * ((99 * n / 100 + 1) * 2 ^ (53 - s)) := by
    rw [hM53]
    ring
  rw [h47] at hM47
  rw [h53] at hlen_hi hk hk1
  apply Nat.div_eq_of_lt_le
  · -- lower bound
    rw [h53, hk]
    apply Nat.mul_le_mul_left
    by_contra hlt
    have hlt2 : a + 1 ≤ 99 * n / 100 * 2 ^ (53 - s) := by omega
    have hmul := Nat.mul_le_mul_left (2 ^ s) hlt2
    rw [← hk, Nat.mul_add, Nat.mul_one] at hmul
    simp only [significand099] at hup hlo hlen_hi
    generalize 2 ^ s = M at *
    generalize M * a = R at *
    omega
  · -- upper bound
    rw [h53]
    simp only [significand099] at hup hlo hlen_hi
    generalize 2 ^ s = M at *
    generalize M * a = R at *
    omega

/-- Any ascending arrangement of the response times is the list `sortSlice` returns. -/
theorem sortSlice_unique (responseTimes sorted : List Int)
    (hperm : sorted.Perm responseTimes) (hsorted : sorted.Sorted (fun a b => a ≤ b)) :
    sorted = sortSlice responseTimes :=
  List.eq_of_perm_of_sorted
    (hperm.trans (List.perm_insertionSort (fun a b : Int => a ≤ b) responseTimes).symm)
    hsorted (List.sorted_insertionSort (fun a b : Int => a ≤ b) responseTimes)

theorem createTenants_zero (server : Server) (i : Nat) (store : List Int) (total : Int) :
    createTenants server 0 i store total = .ok (store, total) := rfl

/-- C10: for every non-empty slice of response times the index
`int(float64(len) * 0.99)` is strictly below the length (and, up to `2 ^ 47` elements,
equals the integer part of `0.99 * len`), so `calculate99thPercentile` returns: its
result is the element at that index of the response times in ascending order, hence
one of the response times. For the empty slice the index 0 is out of range and the
call panics, which `main` reaches when zero tenants are requested and the server is
up and accepts the schema. -/
theorem calculate99thPercentile_spec (responseTimes : List Int) (h : responseTimes ≠ []) :
    percentileIndex responseTimes.length < responseTimes.length ∧
    (responseTimes.length ≤ 2 ^ 47 →
      percentileIndex responseTimes.length = 99 * responseTimes.length / 100) ∧
    (sortSlice responseTimes).Perm responseTimes ∧
    (sortSlice responseTimes).Sorted (fun a b => a ≤ b) ∧
    (∃ percentile99 : Int,
      calculate99thPercentile responseTimes = .ok percentile99 ∧
      (sortSlice responseTimes)[percentileIndex responseTimes.length]? = some percentile99 ∧
      percentile99 ∈ responseTimes) ∧
    calculate99thPercentile [] = .error (Panic.indexOutOfRange 0 0) ∧
    (∀ server : Server, isWeaviateRunning server = true →
      server.addSchema.failed = false → server.addSchema.StatusCode = 200 →
      main 0 server = .error (Panic.indexOutOfRange 0 0)) := by
  have hpos : 0 < responseTimes.length := List.length_pos.mpr h
  have hidx := percentileIndex_lt responseTimes.length hpos
  have hperm : (sortSlice responseTimes).Perm responseTimes :=
    List.perm_insertionSort _ responseTimes
  have hlen : (sortSlice responseTimes).length = responseTimes.length := hperm.length_eq
  have hidx2 : percentileIndex (sortSlice responseTimes).length <
      (sortSlice responseTimes).length := by rw [hlen]; exact hidx
  refine ⟨hidx, percentileIndex_eq _, hperm, List.sorted_insertionSort _ responseTimes,
    ?_, rfl, ?_⟩
  · refine ⟨(sortSlice responseTimes)[percentileIndex (sortSlice responseTimes).length], ?_,
      ?_, ?_⟩
    · simp only [calculate99thPercentile, List.getElem?_eq_getElem hidx2]
    · rw [← hlen]
      exact List.getElem?_eq_getElem hidx2
    · exact hperm.subset (List.getElem_mem _)
  · intro server hrun hfail hcode
    simp [main, hrun, hfail, hcode, createTenants, calculate99thPercentile, sortSlice,
      percentileIndex, roundToFloat64, bitLength, bitLengthAux]

/-- Witness of C10: the response times 5, 3, 9, -2 give the index 3 and the
percentile 9. -/
theorem calculate99thPercentile_spec_witness :
    ([5, 3, 9, -2] : List Int) ≠ [] ∧
    percentileIndex 4 = 3 ∧
    sortSlice [5, 3, 9, -2] = [-2, 3, 5, 9] ∧
    calculate99thPercentile [5, 3, 9, -2] = .ok 9 ∧
    percentileIndex ([5, 3, 9, -2] : List Int).length < ([5, 3, 9, -2] : List Int).length :=
  ⟨by decide, by decide, by decide, rfl,
    (calculate99thPercentile_spec [5, 3, 9, -2] (by decide)).1⟩

end BenchmarkTenants
